import Mathlib

/-!
Shallow embedding of the `ReportGenerator` class of `src/app/reports.py`.

Tables are lists of records; dates are modelled as `Int` day numbers since
1970-01-01 (the source parses `sale_dt` into comparable datetimes; only the
order of dates matters to the pipelines); `price` is modelled as an exact
integer.  The only nullable cells the pipelines can meet are the vehicle /
vehicle-model columns produced by the two left joins, so joined rows carry
`Option Vehicle` / `Option VehicleModel` fields; `dropna` keeps exactly the
rows where both are present.

pandas behaviours embedded here, each noted at its definition:
- `pd.merge` (inner and left) preserves the order of the left frame's rows
  and, per left row, matches right rows in right-frame order;
- `groupby(sort=True)` (the default) enumerates groups in ascending key
  order, and within a group keeps the original row order;
- the aggregation `first` takes the first non-null value of the group;
- `pd.Series.mode` returns the most frequent non-null values sorted
  ascending;
- `sort_values` places null keys last; its tie order (quicksort) is not
  specified, and is modelled by a stable insertion sort.
-/

/-- Lexicographic code-point comparison of character lists: Python (and
hence pandas sorts of string columns) compares strings by unicode code
points, shorter prefix first.  Defined structurally so that it evaluates
inside the kernel. -/
def strListLe : List Char → List Char → Bool
  | [], _ => true
  | _ :: _, [] => false
  | a :: as, b :: bs =>
    if a.toNat < b.toNat then true
    else if b.toNat < a.toNat then false
    else strListLe as bs

/-- `a <= b` on strings, by code points. -/
def strLe (a b : String) : Bool := strListLe a.data b.data

/-- The ascending order pandas uses on string columns. -/
def strRel (a b : String) : Prop := strLe a b = true

instance : DecidableRel strRel := fun a b =>
  inferInstanceAs (Decidable (strLe a b = true))

instance : IsTotal String strRel := by
  constructor
  intro a b
  show strListLe a.data b.data = true ∨ strListLe b.data a.data = true
  generalize a.data = as
  generalize b.data = bs
  induction as generalizing bs with
  | nil => exact Or.inl rfl
  | cons a as ih =>
    cases bs with
    | nil => exact Or.inr rfl
    | cons b bs =>
      simp only [strListLe]
      split_ifs <;>
        first
          | exact Or.inl rfl
          | exact Or.inr rfl
          | omega
          | exact ih bs

instance : IsTrans String strRel := by
  constructor
  intro a b c h1 h2
  show strListLe a.data c.data = true
  rw [show strRel a b = (strListLe a.data b.data = true) from rfl] at h1
  rw [show strRel b c = (strListLe b.data c.data = true) from rfl] at h2
  generalize a.data = as at h1 ⊢
  generalize b.data = bs at h1 h2
  generalize c.data = cs at h2 ⊢
  induction as generalizing bs cs with
  | nil => rfl
  | cons a as ih =>
    cases bs with
    | nil => simp [strListLe] at h1
    | cons b bs =>
      cases cs with
      | nil => simp [strListLe] at h2
      | cons c cs =>
        simp only [strListLe] at h1 h2 ⊢
        split_ifs at h1 h2 ⊢ <;>
          first
            | rfl
            | exact ih bs h1 cs h2
            | omega

structure Sale where
  sale_id : Nat
  invoice_id : Nat
  customer_id : Nat
  vehicle_id : Nat
  sale_dt : Int
  deriving DecidableEq

structure Invoice where
  invoice_id : Nat
  price : Int
  deriving DecidableEq

structure Vehicle where
  vehicle_id : Nat
  vehicle_model_id : Nat
  vehicle_year : Int
  deriving DecidableEq

structure VehicleModel where
  vehicle_model_id : Nat
  brand_name : String
  model_name : String
  deriving DecidableEq

structure Customer where
  customer_id : Nat
  customer_name : String
  deriving DecidableEq

/-- The five tables read from the sqlite database. -/
structure DB where
  sales : List Sale
  invoices : List Invoice
  vehicles : List Vehicle
  vehicle_models : List VehicleModel
  customers : List Customer
  deriving DecidableEq

/-- `dt.datetime(2020, 1, 1)` as a day number (days since 1970-01-01). -/
def newCutoff : Int := 18262

/-- `dt.datetime(2016, 1, 1)` as a day number (days since 1970-01-01). -/
def oldCutoff : Int := 16801

/-- Right-hand side of a pandas left join for one left row: when no right
row matches the key, a single null (`none`) partner is produced; otherwise
one partner per matching right row, in right-frame order. -/
def leftHand {β : Type} (ms : List β) : List (Option β) :=
  match ms with
  | [] => [none]
  | _ => ms.map some

/-- Matches of the `vehicle_models` left join for an (optional) vehicle:
a null `vehicle_model_id` key never matches. -/
def modelMatches (models : List VehicleModel) (ov : Option Vehicle) : List VehicleModel :=
  match ov with
  | none => []
  | some v => models.filter (fun mo => decide (mo.vehicle_model_id = v.vehicle_model_id))

/-- A row of the joined frame of `sales_by_brand`:
`merge(merge(merge(sales, invoices, on=invoice_id), vehicles, on=vehicle_id,
how=left), vehicle_models, on=vehicle_model_id, how=left)`. -/
structure BRow where
  sale : Sale
  inv : Invoice
  veh : Option Vehicle
  vm : Option VehicleModel
  deriving DecidableEq

/-- The join chain of `sales_by_brand` (reports.py lines 72-77).  Inner join
keeps left-row order; the two left joins use `leftHand`. -/
def joinSIVM (sales : List Sale) (invoices : List Invoice) (vehicles : List Vehicle)
    (models : List VehicleModel) : List BRow :=
  sales.flatMap (fun s =>
    (invoices.filter (fun i => decide (i.invoice_id = s.invoice_id))).flatMap (fun i =>
      (leftHand (vehicles.filter (fun v => decide (v.vehicle_id = s.vehicle_id)))).flatMap (fun ov =>
        (leftHand (modelMatches models ov)).map (fun om => ⟨s, i, ov, om⟩))))

/-- `dropna` survivor test for `sales_by_brand`: the only nullable cells are
the vehicle columns and the model columns, so a row survives iff both left
joins matched. -/
def bRowNotNull (r : BRow) : Bool := r.veh.isSome && r.vm.isSome

/-- Joined rows of `sales_by_brand` surviving `dropna` (lines 81-83; when no
null is present `dropna` is skipped, which is the identity on the frame). -/
def sbKept (sales : List Sale) (invoices : List Invoice) (vehicles : List Vehicle)
    (models : List VehicleModel) : List BRow :=
  (joinSIVM sales invoices vehicles models).filter bRowNotNull

/-- The `brand_name` cell of a joined row (null when the model join missed). -/
def brandKey (r : BRow) : Option String := r.vm.map (fun mo => mo.brand_name)

/-- The rows of one `groupby('brand_name')` group. -/
def sbGroupRows (kept : List BRow) (b : String) : List BRow :=
  kept.filter (fun r => decide (brandKey r = some b))

/-- An output row of `sales_by_brand` after the rename (line 88). -/
structure SBOut where
  vehicle_brand : String
  n_sales : Nat
  total_value : Int
  deriving DecidableEq

/-- The order used by `df.sort_values(['n_sales', 'total_value'],
ascending=False)` (line 92): descending by `n_sales`, then descending by
`total_value`. -/
def sbLe (a b : SBOut) : Prop :=
  b.n_sales < a.n_sales ∨ (a.n_sales = b.n_sales ∧ b.total_value ≤ a.total_value)

instance : DecidableRel sbLe := fun a b =>
  inferInstanceAs (Decidable (b.n_sales < a.n_sales ∨
    (a.n_sales = b.n_sales ∧ b.total_value ≤ a.total_value)))

instance : IsTotal SBOut sbLe := by
  constructor
  intro a b
  rcases lt_trichotomy a.n_sales b.n_sales with h | h | h
  · exact Or.inr (Or.inl h)
  · rcases le_total a.total_value b.total_value with ht | ht
    · exact Or.inr (Or.inr ⟨h.symm, ht⟩)
    · exact Or.inl (Or.inr ⟨h, ht⟩)
  · exact Or.inl (Or.inl h)

instance : IsTrans SBOut sbLe := by
  constructor
  intro a b c hab hbc
  rcases hab with h1 | ⟨e1, t1⟩
  · rcases hbc with h2 | ⟨e2, t2⟩
    · exact Or.inl (h2.trans h1)
    · exact Or.inl (by rw [← e2]; exact h1)
  · rcases hbc with h2 | ⟨e2, t2⟩
    · exact Or.inl (by rw [e1]; exact h2)
    · exact Or.inr ⟨e1.trans e2, t2.trans t1⟩

/-- The `groupby('brand_name')` group keys, in ascending order (the pandas
default `sort=True`); a null key forms no group. -/
def sbKeys (kept : List BRow) : List String :=
  List.insertionSort strRel ((kept.filterMap brandKey).dedup)

/-- The aggregated frame of line 86: per brand group, `size` of `sale_id`
and `sum` of `price`, renamed per line 88. -/
def sbGrouped (kept : List BRow) : List SBOut :=
  (sbKeys kept).map (fun b =>
    { vehicle_brand := b
      n_sales := (sbGroupRows kept b).length
      total_value := ((sbGroupRows kept b).map (fun r => r.inv.price)).sum : SBOut })

/-- `sales_by_brand` (reports.py lines 46-94), up to the `to_csv` call:
join, drop null rows, group by `brand_name`, aggregate, rename, and sort
descending by `n_sales` then `total_value`. -/
def sales_by_brand (sales : List Sale) (invoices : List Invoice) (vehicles : List Vehicle)
    (models : List VehicleModel) : List SBOut :=
  List.insertionSort sbLe (sbGrouped (sbKept sales invoices vehicles models))

/-- A row of the joined frame shared by `new_customers`, `old_customers`
and `next_vehicle`: `merge(merge(merge(sales, customers, on=customer_id),
vehicles, on=vehicle_id, how=left), vehicle_models, on=vehicle_model_id,
how=left)`. -/
structure JRow where
  sale : Sale
  cust : Customer
  veh : Option Vehicle
  vm : Option VehicleModel
  deriving DecidableEq

/-- The join chain of `new_customers` / `old_customers` / `next_vehicle`
(reports.py lines 119-123, 170-174, 221-225). -/
def joinSCVM (sales : List Sale) (customers : List Customer) (vehicles : List Vehicle)
    (models : List VehicleModel) : List JRow :=
  sales.flatMap (fun s =>
    (customers.filter (fun c => decide (c.customer_id = s.customer_id))).flatMap (fun c =>
      (leftHand (vehicles.filter (fun v => decide (v.vehicle_id = s.vehicle_id)))).flatMap (fun ov =>
        (leftHand (modelMatches models ov)).map (fun om => ⟨s, c, ov, om⟩))))

/-- `dropna` survivor test for `new_customers` / `old_customers`. -/
def jRowNotNull (r : JRow) : Bool := r.veh.isSome && r.vm.isSome

/-- The rows of one `groupby('customer_id')` group, in original order. -/
def custGroup (rows : List JRow) (cid : Nat) : List JRow :=
  rows.filter (fun r => decide (r.sale.customer_id = cid))

/-- Joined rows of `new_customers` surviving `dropna` (lines 127-129). -/
def ncKept (sales : List Sale) (customers : List Customer) (vehicles : List Vehicle)
    (models : List VehicleModel) : List JRow :=
  (joinSCVM sales customers vehicles models).filter jRowNotNull

/-- Rows of `new_customers` after `df[df.sale_dt >= dt.datetime(2020, 1, 1)]`
(line 132): the bound is inclusive. -/
def ncQualified (sales : List Sale) (customers : List Customer) (vehicles : List Vehicle)
    (models : List VehicleModel) : List JRow :=
  (ncKept sales customers vehicles models).filter (fun r => decide (newCutoff ≤ r.sale.sale_dt))

/-- Rows of `old_customers` after `df[df.sale_dt <= dt.datetime(2016, 1, 1)]`
(line 183): the bound is inclusive. -/
def ocQualified (sales : List Sale) (customers : List Customer) (vehicles : List Vehicle)
    (models : List VehicleModel) : List JRow :=
  (ncKept sales customers vehicles models).filter (fun r => decide (r.sale.sale_dt ≤ oldCutoff))

/-- An output row of `new_customers` / `old_customers` after the rename;
field order follows the aggregated frame (`customer_id` kept by
`as_index=False`, then the aggregation dict order of line 133).  The
nullable fields model nullable frame cells; after `dropna` they are always
present. -/
structure NCOut where
  customer_id : Nat
  sale_dt : Int
  customer_name : String
  vehicle_brand : Option String
  vehicle_model : Option String
  vehicle_year : Option Int
  deriving DecidableEq

/-- One group's aggregation row (lines 133-137): `max` of `sale_dt` and
`first` of the other columns.  pandas `first` takes the first non-null
value in group order; here every value of the group is non-null (the group
is taken from the frame after `dropna`), so it is the head row's value. -/
def aggCustomer (cid : Nat) (g : List JRow) : Option NCOut :=
  match g with
  | [] => none
  | r :: rs => some
      { customer_id := cid
        sale_dt := rs.foldl (fun acc x => max acc x.sale.sale_dt) r.sale.sale_dt
        customer_name := r.cust.customer_name
        vehicle_brand := r.vm.map (fun mo => mo.brand_name)
        vehicle_model := r.vm.map (fun mo => mo.model_name)
        vehicle_year := r.veh.map (fun v => v.vehicle_year) }

/-- The order used by `sort_values(['customer_name'])` (lines 142, 193). -/
def nameLe (a b : NCOut) : Prop := strLe a.customer_name b.customer_name = true

instance : DecidableRel nameLe := fun a b =>
  inferInstanceAs (Decidable (strLe a.customer_name b.customer_name = true))

/-- The `groupby('customer_id')` group keys over the qualifying rows, in
ascending order (the pandas default `sort=True`). -/
def ncKeys (qualified : List JRow) : List Nat :=
  List.insertionSort (fun a b : Nat => a ≤ b)
    ((qualified.map (fun r => r.sale.customer_id)).dedup)

/-- The aggregated frame of lines 133-137, one row per group key. -/
def ncGrouped (qualified : List JRow) : List NCOut :=
  (ncKeys qualified).filterMap (fun cid => aggCustomer cid (custGroup qualified cid))

/-- The shared tail of `new_customers` / `old_customers`: group the
qualifying rows by `customer_id`, aggregate, and sort by `customer_name`. -/
def customersReport (qualified : List JRow) : List NCOut :=
  List.insertionSort nameLe (ncGrouped qualified)

/-- `new_customers` (reports.py lines 96-146), up to the `to_csv` call. -/
def new_customers (sales : List Sale) (customers : List Customer) (vehicles : List Vehicle)
    (models : List VehicleModel) : List NCOut :=
  customersReport (ncQualified sales customers vehicles models)

/-- `old_customers` (reports.py lines 148-197), up to the `to_csv` call. -/
def old_customers (sales : List Sale) (customers : List Customer) (vehicles : List Vehicle)
    (models : List VehicleModel) : List NCOut :=
  customersReport (ocQualified sales customers vehicles models)

/-- The joined frame of `next_vehicle` (lines 221-225); note: no `dropna`. -/
def nvDf (sales : List Sale) (customers : List Customer) (vehicles : List Vehicle)
    (models : List VehicleModel) : List JRow :=
  joinSCVM sales customers vehicles models

/-- `customers_id = df.groupby('customer_id')['sale_dt'].size();
customers_id = customers_id[customers_id > 1]` (lines 228-229): the ids of
customers with more than one row in the joined frame. -/
def nvRetainedIds (df : List JRow) : List Nat :=
  ((df.map (fun r => r.sale.customer_id)).dedup).filter
    (fun cid => decide (1 < (custGroup df cid).length))

/-- `df = df[df.customer_id.isin(customers_id.index.values)]` (line 230). -/
def nvDf2 (sales : List Sale) (customers : List Customer) (vehicles : List Vehicle)
    (models : List VehicleModel) : List JRow :=
  (nvDf sales customers vehicles models).filter
    (fun r => (nvRetainedIds (nvDf sales customers vehicles models)).contains r.sale.customer_id)

/-- The order used by `df.sort_values('sale_dt')` (line 232). -/
def dateLe (a b : JRow) : Prop := a.sale.sale_dt ≤ b.sale.sale_dt

instance : DecidableRel dateLe := fun a b =>
  inferInstanceAs (Decidable (a.sale.sale_dt ≤ b.sale.sale_dt))

/-- The retained frame of `next_vehicle` sorted ascending by `sale_dt`. -/
def nvDfs (sales : List Sale) (customers : List Customer) (vehicles : List Vehicle)
    (models : List VehicleModel) : List JRow :=
  List.insertionSort dateLe (nvDf2 sales customers vehicles models)

/-- The group keys of the two `groupby('customer_id')` calls of lines
234-238, in ascending order (the pandas default). -/
def nvKeys (sales : List Sale) (customers : List Customer) (vehicles : List Vehicle)
    (models : List VehicleModel) : List Nat :=
  List.insertionSort (fun a b : Nat => a ≤ b)
    (((nvDfs sales customers vehicles models).map (fun r => r.sale.customer_id)).dedup)

/-- The non-null `brand_name` values of one customer's rows, in frame
(ascending `sale_dt`) order. -/
def nvBrands (dfs : List JRow) (cid : Nat) : List String :=
  (custGroup dfs cid).filterMap (fun r => r.vm.map (fun mo => mo.brand_name))

/-- `pd.Series.mode(x)[0]` (line 234): the most frequent non-null values,
sorted ascending, first element taken.  `none` models the raised lookup
error when the mode series is empty (all values of the group null). -/
def modeFirst (vals : List String) : Option String :=
  let uniq := vals.dedup
  let maxc := (uniq.map (fun v => vals.count v)).foldl max 0
  (List.insertionSort strRel (uniq.filter (fun v => decide (vals.count v = maxc)))).head?

/-- One row of the mode aggregation `df.groupby('customer_id').agg(
{'brand_name': lambda x: pd.Series.mode(x)[0]})` (lines 234-235); the
indexing error on an empty mode series is modelled as `Except.error`. -/
def nvModeRow (dfs : List JRow) (cid : Nat) : Except String (Nat × String) :=
  match modeFirst (nvBrands dfs cid) with
  | some b => Except.ok (cid, b)
  | none => Except.error "index 0 not found on empty mode series"

/-- An output row of `next_vehicle`: the index `customer_id`, then the
columns of the merged frame of lines 236-239 in frame order — the left
frame's `most_common_second_veh_brand` first, then the right frame's
`first_veh_brand`.  `first_veh_brand` is nullable (no `dropna` ran). -/
structure NVOut where
  customer_id : Nat
  most_common_second_veh_brand : String
  first_veh_brand : Option String
  deriving DecidableEq

/-- Ascending order on the nullable `first_veh_brand` column:
`sort_values` places nulls last (`na_position='last'`, the default). -/
def optStrLe : Option String → Option String → Prop
  | some x, some y => strLe x y = true
  | none, some _ => False
  | some _, none => True
  | none, none => True

instance : (a b : Option String) → Decidable (optStrLe a b)
  | some _, some _ => inferInstanceAs (Decidable (_ = true))
  | none, some _ => inferInstanceAs (Decidable False)
  | some _, none => inferInstanceAs (Decidable True)
  | none, none => inferInstanceAs (Decidable True)

/-- The order used by `df_.sort_values(['first_veh_brand'])` (line 241). -/
def fvLe (a b : NVOut) : Prop := optStrLe a.first_veh_brand b.first_veh_brand

instance : DecidableRel fvLe := fun a b =>
  inferInstanceAs (Decidable (optStrLe a.first_veh_brand b.first_veh_brand))

/-- The mode aggregation frame of lines 234-235, built group by group; the
first raised indexing error (empty mode series) aborts the whole
aggregation, as in pandas. -/
def nvModeRows (dfs : List JRow) : List Nat → Except String (List (Nat × String))
  | [] => Except.ok []
  | k :: ks =>
      match nvModeRow dfs k, nvModeRows dfs ks with
      | Except.ok p, Except.ok rest => Except.ok (p :: rest)
      | Except.error e, _ => Except.error e
      | Except.ok _, Except.error e => Except.error e

/-- The `agg({'brand_name': 'first'})` frame of lines 237-238 (renamed
`first_veh_brand`): per group key, the first non-null brand in ascending
`sale_dt` order. -/
def nvFirstRows (dfs : List JRow) (keys : List Nat) : List (Nat × Option String) :=
  keys.map (fun cid => (cid, (nvBrands dfs cid).head?))

/-- The `how='left'` merge of lines 236-239: both frames are grouped over
the same `customer_id` index, so each left (mode) row is paired with the
`first_veh_brand` of the same key; a missing right key would yield a null
(the `Option.join`). -/
def nvMerged (dfs : List JRow) (keys : List Nat)
    (modeRows : List (Nat × String)) : List NVOut :=
  modeRows.map (fun p =>
    { customer_id := p.1
      most_common_second_veh_brand := p.2
      first_veh_brand := (List.lookup p.1 (nvFirstRows dfs keys)).join : NVOut })

/-- `next_vehicle` (reports.py lines 200-242), up to the `to_csv` call.
An empty mode series makes the whole operation raise, modelled as
`Except.error`; otherwise the merged frame is sorted ascending by
`first_veh_brand`. -/
def next_vehicle (sales : List Sale) (customers : List Customer) (vehicles : List Vehicle)
    (models : List VehicleModel) : Except String (List NVOut) :=
  match nvModeRows (nvDfs sales customers vehicles models)
      (nvKeys sales customers vehicles models) with
  | Except.error e => Except.error e
  | Except.ok modeRows =>
      Except.ok (List.insertionSort fvLe
        (nvMerged (nvDfs sales customers vehicles models)
          (nvKeys sales customers vehicles models) modeRows))

/-- One CSV row of `df_.to_csv(filename)` for `next_vehicle` (line 242),
as (column name, cell) pairs in written order: the index (`customer_id`)
leftmost, then the frame columns in frame order. -/
inductive Cell where
  | nat (n : Nat)
  | str (s : String)
  | null
  deriving DecidableEq

def nvCsvRow (o : NVOut) : List (String × Cell) :=
  [("customer_id", Cell.nat o.customer_id),
   ("most_common_second_veh_brand", Cell.str o.most_common_second_veh_brand),
   ("first_veh_brand", match o.first_veh_brand with
                       | some b => Cell.str b
                       | none => Cell.null)]

/-- `ReportGenerator.__to_csv` (lines 35-44) after the dataframe is built:
the `df.to_csv` call is the only statement inside the `try`; its outcome is
modelled by an `Except` value.  A successful write returns 0, a raised
write error is caught and 1 is returned. -/
def to_csv (writeResult : Except String Unit) : Nat :=
  match writeResult with
  | Except.ok _ => 0
  | Except.error _ => 1

/-- The full `sales_by_brand` operation: the table reads (lines 64-67) are
outside any `try` block, so a read failure propagates; only the final write
is guarded by `__to_csv`. -/
def run_sales_by_brand (read : Except String DB)
    (write : List SBOut → Except String Unit) : Except String Nat :=
  match read with
  | Except.error e => Except.error e
  | Except.ok db =>
      Except.ok (to_csv (write (sales_by_brand db.sales db.invoices db.vehicles db.vehicle_models)))

/-- The full `new_customers` operation; reads unguarded, write guarded. -/
def run_new_customers (read : Except String DB)
    (write : List NCOut → Except String Unit) : Except String Nat :=
  match read with
  | Except.error e => Except.error e
  | Except.ok db =>
      Except.ok (to_csv (write (new_customers db.sales db.customers db.vehicles db.vehicle_models)))

/-- The full `old_customers` operation; reads unguarded, write guarded. -/
def run_old_customers (read : Except String DB)
    (write : List NCOut → Except String Unit) : Except String Nat :=
  match read with
  | Except.error e => Except.error e
  | Except.ok db =>
      Except.ok (to_csv (write (old_customers db.sales db.customers db.vehicles db.vehicle_models)))

/-- The full `next_vehicle` operation; reads and the pipeline (which can
raise on an empty mode series) are unguarded, only the write is guarded. -/
def run_next_vehicle (read : Except String DB)
    (write : List NVOut → Except String Unit) : Except String Nat :=
  match read with
  | Except.error e => Except.error e
  | Except.ok db =>
      match next_vehicle db.sales db.customers db.vehicles db.vehicle_models with
      | Except.error e => Except.error e
      | Except.ok out => Except.ok (to_csv (write out))

/-- A Sales row whose `sales_by_brand` join succeeds with no null cells:
it has a matching invoice, a matching vehicle, and that vehicle has a
matching model.  (Used to state claim C2; under unique join keys the
matching vehicle is unique, so taking the head of the filter is exact.) -/
def saleJoinOk (invoices : List Invoice) (vehicles : List Vehicle)
    (models : List VehicleModel) (s : Sale) : Bool :=
  !(invoices.filter (fun i => decide (i.invoice_id = s.invoice_id))).isEmpty &&
  match vehicles.filter (fun v => decide (v.vehicle_id = s.vehicle_id)) with
  | [] => false
  | v :: _ => !(models.filter (fun mo => decide (mo.vehicle_model_id = v.vehicle_model_id))).isEmpty

/-- Modelled from the spec: claim C4's tie-break — among the values tied
for most frequent, the one first encountered in list order. -/
def modeFirstEncountered (vals : List String) : Option String :=
  let maxc := ((vals.dedup).map (fun v => vals.count v)).foldl max 0
  (vals.filter (fun v => decide (vals.count v = maxc))).head?

deriving instance DecidableEq for Except

/-! ### Shared lemmas -/

theorem strListLe_refl (l : List Char) : strListLe l l = true := by
  induction l with
  | nil => rfl
  | cons a as ih => simp [strListLe, Nat.lt_irrefl, ih]

theorem strLe_refl (s : String) : strLe s s = true := strListLe_refl s.data

theorem leftHand_length_one {β : Type} (ms : List β) (h : ms.length ≤ 1) :
    (leftHand ms).length = 1 := by
  match ms with
  | [] => rfl
  | [x] => rfl
  | x :: y :: r => simp at h

theorem filter_key_length_le_one {α κ : Type} [DecidableEq κ] (key : α → κ) (l : List α)
    (hnd : (l.map key).Nodup) (k : κ) :
    (l.filter (fun x => decide (key x = k))).length ≤ 1 := by
  induction l with
  | nil => simp
  | cons a l ih =>
    rw [List.map_cons, List.nodup_cons] at hnd
    rw [List.filter_cons]
    by_cases hk : key a = k
    · rw [if_pos (by simp [hk])]
      have hnil : List.filter (fun x => decide (key x = k)) l = [] := by
        rw [List.filter_eq_nil_iff]
        intro x hx
        simp only [decide_eq_true_eq]
        intro hxk
        exact hnd.1 (hk ▸ hxk ▸ List.mem_map_of_mem key hx)
      simp [hnil]
    · rw [if_neg (by simp [hk])]
      exact ih hnd.2

theorem filter_flatMap {α β : Type} (l : List α) (f : α → List β) (p : β → Bool) :
    (l.flatMap f).filter p = l.flatMap (fun a => (f a).filter p) := by
  induction l with
  | nil => rfl
  | cons a l ih => simp [List.flatMap_cons, List.filter_append, ih]

theorem countP_key_nodup {κ : Type} [DecidableEq κ] (keys : List κ) (hnd : keys.Nodup)
    (c : κ) : keys.countP (fun k => decide (k = c)) = if c ∈ keys then 1 else 0 := by
  induction keys with
  | nil => simp
  | cons k ks ih =>
    rw [List.nodup_cons] at hnd
    rw [List.countP_cons, ih hnd.2]
    by_cases hc : k = c
    · subst hc
      simp [hnd.1]
    · have hck : ¬ c = k := fun h => hc h.symm
      have hd : (decide (k = c)) = false := by simp [hc]
      rw [hd]
      by_cases hm : c ∈ ks <;> simp [hm, List.mem_cons, hck]

theorem sum_map_add_nat {α : Type} (l : List α) (f g : α → Nat) :
    (l.map (fun a => f a + g a)).sum = (l.map f).sum + (l.map g).sum := by
  induction l with
  | nil => rfl
  | cons a l ih => simp [ih]; omega

theorem sum_indicator_zero {κ : Type} [DecidableEq κ] (keys : List κ) (c : κ)
    (h : c ∉ keys) : (keys.map (fun k => if c = k then 1 else 0)).sum = 0 := by
  induction keys with
  | nil => rfl
  | cons k ks ih =>
    rw [List.mem_cons, not_or] at h
    simp [h.1, ih h.2]

theorem sum_indicator_one {κ : Type} [DecidableEq κ] (keys : List κ) (hnd : keys.Nodup)
    (c : κ) (hc : c ∈ keys) : (keys.map (fun k => if c = k then 1 else 0)).sum = 1 := by
  induction keys with
  | nil => simp at hc
  | cons k ks ih =>
    rw [List.nodup_cons] at hnd
    rcases List.mem_cons.mp hc with h | h
    · subst h
      simp [sum_indicator_zero ks c hnd.1]
    · have hck : ¬ c = k := by
        rintro rfl
        exact hnd.1 h
      simp [hck, ih hnd.2 h]

theorem sum_group_lengths {α κ : Type} [DecidableEq κ] (key : α → κ) (keys : List κ)
    (l : List α) (hnd : keys.Nodup) (hcov : ∀ a ∈ l, key a ∈ keys) :
    (keys.map (fun k => (l.filter (fun a => decide (key a = k))).length)).sum = l.length := by
  induction l with
  | nil => simp
  | cons a l ih =>
    have hmap : keys.map (fun k => ((a :: l).filter (fun x => decide (key x = k))).length) =
        keys.map (fun k => (if key a = k then 1 else 0) +
          (l.filter (fun x => decide (key x = k))).length) := by
      apply List.map_congr_left
      intro k _
      rw [List.filter_cons]
      by_cases hk : key a = k
      · rw [if_pos (by simp [hk]), if_pos hk, List.length_cons]
        omega
      · rw [if_neg (by simp [hk]), if_neg hk]
        omega
    rw [hmap, sum_map_add_nat, sum_indicator_one keys hnd (key a) (hcov a (List.mem_cons_self a l)),
      ih (fun x hx => hcov x (List.mem_cons_of_mem a hx))]
    simp [Nat.add_comm]

theorem countP_filterMap_keys {κ β : Type} [DecidableEq κ] (keys : List κ) (f : κ → Option β)
    (keyOf : β → κ) (hf : ∀ k r, f k = some r → keyOf r = k)
    (hsome : ∀ k ∈ keys, (f k).isSome = true) (hnd : keys.Nodup) (c : κ) :
    (keys.filterMap f).countP (fun r => decide (keyOf r = c)) = if c ∈ keys then 1 else 0 := by
  induction keys with
  | nil => simp
  | cons k ks ih =>
    rw [List.nodup_cons] at hnd
    have hk := hsome k (List.mem_cons_self k ks)
    rcases Option.isSome_iff_exists.mp hk with ⟨r, hr⟩
    rw [List.filterMap_cons, hr, List.countP_cons,
      ih (fun x hx => hsome x (List.mem_cons_of_mem k hx)) hnd.2]
    have hkey : keyOf r = k := hf k r hr
    by_cases hc : c = k
    · subst hc
      simp [hkey, hnd.1]
    · have hne : ¬ keyOf r = c := by
        rw [hkey]
        exact fun h => hc h.symm
      have hd : (decide (keyOf r = c)) = false := by simp [hne]
      rw [hd]
      by_cases hm : c ∈ ks <;> simp [hm, List.mem_cons, hc]

theorem le_foldl_max {α : Type} [LinearOrder α] (l : List α) (d : α) :
    d ≤ l.foldl max d := by
  induction l generalizing d with
  | nil => exact le_refl d
  | cons a l ih => exact le_trans (le_max_left d a) (ih (max d a))

theorem le_foldl_max_of_mem {α : Type} [LinearOrder α] (l : List α) :
    ∀ x d : α, x ∈ l → x ≤ l.foldl max d := by
  induction l with
  | nil =>
    intro x d hx
    cases hx
  | cons a l ih =>
    intro x d hx
    rcases List.mem_cons.mp hx with h | h
    · subst h
      exact le_trans (le_max_right d x) (le_foldl_max l (max d x))
    · exact ih x (max d a) h

theorem foldl_max_mem {α : Type} [LinearOrder α] (l : List α) :
    ∀ d : α, l.foldl max d = d ∨ l.foldl max d ∈ l := by
  induction l with
  | nil => exact fun d => Or.inl rfl
  | cons a l ih =>
    intro d
    rcases ih (max d a) with h | h
    · rcases max_choice d a with hm | hm
      · refine Or.inl ?_
        rw [List.foldl_cons, h]
        exact hm
      · refine Or.inr ?_
        rw [List.foldl_cons, h, hm]
        exact List.mem_cons_self a l
    · exact Or.inr (List.mem_cons_of_mem a h)

theorem modeFirst_spec (vals : List String) (v : String) (h : modeFirst vals = some v) :
    v ∈ vals ∧ (∀ u ∈ vals, vals.count u ≤ vals.count v) ∧
      (∀ u ∈ vals, vals.count u = vals.count v → strLe v u = true) := by
  have h' : (List.insertionSort strRel ((vals.dedup).filter (fun w =>
      decide (vals.count w = (vals.dedup.map (fun w => vals.count w)).foldl max 0)))).head? =
      some v := h
  generalize hm : (vals.dedup.map (fun w => vals.count w)).foldl max 0 = maxc at h'
  have hperm := List.perm_insertionSort strRel
    ((vals.dedup).filter (fun w => decide (vals.count w = maxc)))
  have hsorted := List.sorted_insertionSort strRel
    ((vals.dedup).filter (fun w => decide (vals.count w = maxc)))
  have hvmem : v ∈ List.insertionSort strRel
      ((vals.dedup).filter (fun w => decide (vals.count w = maxc))) :=
    List.mem_of_mem_head? h'
  have hvflt : v ∈ (vals.dedup).filter (fun w => decide (vals.count w = maxc)) :=
    hperm.mem_iff.mp hvmem
  have hvcnt : vals.count v = maxc := by simpa using List.of_mem_filter hvflt
  refine ⟨List.mem_dedup.mp (List.mem_of_mem_filter hvflt), ?_, ?_⟩
  · intro u hu
    rw [hvcnt, ← hm]
    exact le_foldl_max_of_mem _ _ 0 (List.mem_map_of_mem _ (List.mem_dedup.mpr hu))
  · intro u hu hcev
    have huflt : u ∈ (vals.dedup).filter (fun w => decide (vals.count w = maxc)) :=
      List.mem_filter.mpr ⟨List.mem_dedup.mpr hu, by simp [hcev, hvcnt]⟩
    have humem := hperm.mem_iff.mpr huflt
    have hcons := List.eq_cons_of_mem_head? h'
    rw [hcons] at hsorted humem
    rcases List.mem_cons.mp humem with rfl | hmem
    · exact strLe_refl u
    · exact (List.sorted_cons.mp hsorted).1 u hmem

/-! ### Claim theorems -/

/-- C10: in the next-vehicle report no null-drop is performed, and
`pd.Series.mode(x)[0]` indexes the mode series unguarded; on an input with
a retained customer (two sales) whose joined `brand_name` values are all
null — here the vehicle left-join finds no match for vehicle id 99 — the
mode series is empty and the operation raises instead of returning a
table. -/
theorem C10_empty_mode_raises :
    next_vehicle [⟨1, 1, 1, 99, 100⟩, ⟨2, 2, 1, 99, 200⟩] [⟨1, "Alice"⟩]
      [⟨1, 101, 2000⟩] [⟨101, "Zebra", "Z1"⟩] =
    Except.error "index 0 not found on empty mode series" := by decide

/-- C1 (code bug): in `new_customers` / `old_customers` the non-date fields
are aggregated with `first` over the group in original table order, without
sorting by `sale_dt` first, so they come from the first qualifying row in
table order, not from the row with maximum `sale_dt`.  Here customer 1
buys a Toyota (day 18300 resp. 16000) and then a Honda (day 18350 resp.
16100); the report carries the max `sale_dt` of the Honda purchase but the
brand/model/year of the earlier Toyota purchase, contradicting the
docstring "brand of the last purchased vehicle". -/
theorem C1_first_not_latest :
    new_customers [⟨1, 1, 1, 1, 18300⟩, ⟨2, 2, 1, 2, 18350⟩] [⟨1, "Alice"⟩]
        [⟨1, 101, 2019⟩, ⟨2, 102, 2021⟩]
        [⟨101, "Toyota", "Corolla"⟩, ⟨102, "Honda", "Civic"⟩] =
      [⟨1, 18350, "Alice", some "Toyota", some "Corolla", some 2019⟩] ∧
    old_customers [⟨1, 1, 1, 1, 16000⟩, ⟨2, 2, 1, 2, 16100⟩] [⟨1, "Alice"⟩]
        [⟨1, 101, 2010⟩, ⟨2, 102, 2012⟩]
        [⟨101, "Toyota", "Corolla"⟩, ⟨102, "Honda", "Civic"⟩] =
      [⟨1, 16100, "Alice", some "Toyota", some "Corolla", some 2010⟩] := by decide

/-- C8 counterexample: on a concrete dataset the named output columns of
the next-vehicle CSV are `most_common_second_veh_brand` then
`first_veh_brand` (after the leftmost index column `customer_id`), not
`first_veh_brand` then `most_common_second_veh_brand` as claimed. -/
theorem C8_column_order_counterexample :
    next_vehicle [⟨1, 1, 1, 1, 100⟩, ⟨2, 2, 1, 2, 200⟩] [⟨1, "Alice"⟩]
        [⟨1, 101, 2000⟩, ⟨2, 102, 2001⟩] [⟨101, "Zebra", "Z1"⟩, ⟨102, "Apple", "A1"⟩] =
      Except.ok [⟨1, "Apple", some "Zebra"⟩] ∧
    ((nvCsvRow ⟨1, "Apple", some "Zebra"⟩).map Prod.fst).drop 1 =
      ["most_common_second_veh_brand", "first_veh_brand"] ∧
    ((nvCsvRow ⟨1, "Apple", some "Zebra"⟩).map Prod.fst).drop 1 ≠
      ["first_veh_brand", "most_common_second_veh_brand"] := by decide

/-- C8 (amended): for every dataset, every row of the next-vehicle CSV has
the named columns in the order `most_common_second_veh_brand` then
`first_veh_brand`, after the leftmost index column `customer_id`. -/
theorem C8_column_order (sales : List Sale) (customers : List Customer)
    (vehicles : List Vehicle) (models : List VehicleModel) (out : List NVOut)
    (_h : next_vehicle sales customers vehicles models = Except.ok out) :
    ∀ o ∈ out, (nvCsvRow o).map Prod.fst =
      ["customer_id", "most_common_second_veh_brand", "first_veh_brand"] := by
  intro o _
  rfl

/-- Witness for C8: the column-order fact evaluated at a concrete run. -/
theorem C8_column_order_witness :
    (nvCsvRow ⟨1, "Apple", some "Zebra"⟩).map Prod.fst =
      ["customer_id", "most_common_second_veh_brand", "first_veh_brand"] :=
  C8_column_order [⟨1, 1, 1, 1, 100⟩, ⟨2, 2, 1, 2, 200⟩] [⟨1, "Alice"⟩]
    [⟨1, 101, 2000⟩, ⟨2, 102, 2001⟩] [⟨101, "Zebra", "Z1"⟩, ⟨102, "Apple", "A1"⟩]
    [⟨1, "Apple", some "Zebra"⟩] (by decide) ⟨1, "Apple", some "Zebra"⟩ (by decide)

/-- C7: each report operation returns 0 when the write succeeds and 1 when
the write raises (the error is caught in `__to_csv`); a read failure — and,
for next-vehicle, a pipeline failure — is not caught and propagates. -/
theorem C7_return_codes (db : DB) (e m : String) (out : List NVOut)
    (wsb : List SBOut → Except String Unit) (wnc woc : List NCOut → Except String Unit)
    (wnv : List NVOut → Except String Unit) :
    ((wsb (sales_by_brand db.sales db.invoices db.vehicles db.vehicle_models) = Except.ok () →
        run_sales_by_brand (Except.ok db) wsb = Except.ok 0) ∧
      (wsb (sales_by_brand db.sales db.invoices db.vehicles db.vehicle_models) = Except.error m →
        run_sales_by_brand (Except.ok db) wsb = Except.ok 1) ∧
      run_sales_by_brand (Except.error e) wsb = Except.error e) ∧
    ((wnc (new_customers db.sales db.customers db.vehicles db.vehicle_models) = Except.ok () →
        run_new_customers (Except.ok db) wnc = Except.ok 0) ∧
      (wnc (new_customers db.sales db.customers db.vehicles db.vehicle_models) = Except.error m →
        run_new_customers (Except.ok db) wnc = Except.ok 1) ∧
      run_new_customers (Except.error e) wnc = Except.error e) ∧
    ((woc (old_customers db.sales db.customers db.vehicles db.vehicle_models) = Except.ok () →
        run_old_customers (Except.ok db) woc = Except.ok 0) ∧
      (woc (old_customers db.sales db.customers db.vehicles db.vehicle_models) = Except.error m →
        run_old_customers (Except.ok db) woc = Except.ok 1) ∧
      run_old_customers (Except.error e) woc = Except.error e) ∧
    ((next_vehicle db.sales db.customers db.vehicles db.vehicle_models = Except.ok out →
        wnv out = Except.ok () → run_next_vehicle (Except.ok db) wnv = Except.ok 0) ∧
      (next_vehicle db.sales db.customers db.vehicles db.vehicle_models = Except.ok out →
        wnv out = Except.error m → run_next_vehicle (Except.ok db) wnv = Except.ok 1) ∧
      (next_vehicle db.sales db.customers db.vehicles db.vehicle_models = Except.error m →
        run_next_vehicle (Except.ok db) wnv = Except.error m) ∧
      run_next_vehicle (Except.error e) wnv = Except.error e) := by
  refine ⟨⟨?_, ?_, rfl⟩, ⟨?_, ?_, rfl⟩, ⟨?_, ?_, rfl⟩, ⟨?_, ?_, ?_, rfl⟩⟩
  · intro hw
    simp [run_sales_by_brand, to_csv, hw]
  · intro hw
    simp [run_sales_by_brand, to_csv, hw]
  · intro hw
    simp [run_new_customers, to_csv, hw]
  · intro hw
    simp [run_new_customers, to_csv, hw]
  · intro hw
    simp [run_old_customers, to_csv, hw]
  · intro hw
    simp [run_old_customers, to_csv, hw]
  · intro hp hw
    simp [run_next_vehicle, to_csv, hp, hw]
  · intro hp hw
    simp [run_next_vehicle, to_csv, hp, hw]
  · intro hp
    simp [run_next_vehicle, hp]

/-- Witness for C7: concrete runs of the return-code contract. -/
theorem C7_return_codes_witness :
    run_sales_by_brand (Except.ok ⟨[], [], [], [], []⟩) (fun _ => Except.ok ()) =
      Except.ok 0 ∧
    run_sales_by_brand (Except.ok ⟨[], [], [], [], []⟩) (fun _ => Except.error "disk full") =
      Except.ok 1 ∧
    run_next_vehicle (Except.error "no such table: Sales") (fun _ => Except.ok ()) =
      Except.error "no such table: Sales" :=
  ⟨(C7_return_codes ⟨[], [], [], [], []⟩ "e" "disk full" [] (fun _ => Except.ok ())
      (fun _ => Except.ok ()) (fun _ => Except.ok ()) (fun _ => Except.ok ())).1.1 rfl,
   (C7_return_codes ⟨[], [], [], [], []⟩ "e" "disk full" [] (fun _ => Except.error "disk full")
      (fun _ => Except.ok ()) (fun _ => Except.ok ()) (fun _ => Except.ok ())).1.2.1 rfl,
   (C7_return_codes ⟨[], [], [], [], []⟩ "no such table: Sales" "m" [] (fun _ => Except.ok ())
      (fun _ => Except.ok ()) (fun _ => Except.ok ()) (fun _ => Except.ok ())).2.2.2.2.2.2⟩

/-- C9: each pipeline is a pure function of the five table contents, so two
invocations against sources with identical table contents produce identical
result tables. -/
theorem C9_deterministic (db1 db2 : DB)
    (hs : db1.sales = db2.sales) (hi : db1.invoices = db2.invoices)
    (hv : db1.vehicles = db2.vehicles) (hm : db1.vehicle_models = db2.vehicle_models)
    (hc : db1.customers = db2.customers) :
    sales_by_brand db1.sales db1.invoices db1.vehicles db1.vehicle_models =
      sales_by_brand db2.sales db2.invoices db2.vehicles db2.vehicle_models ∧
    new_customers db1.sales db1.customers db1.vehicles db1.vehicle_models =
      new_customers db2.sales db2.customers db2.vehicles db2.vehicle_models ∧
    old_customers db1.sales db1.customers db1.vehicles db1.vehicle_models =
      old_customers db2.sales db2.customers db2.vehicles db2.vehicle_models ∧
    next_vehicle db1.sales db1.customers db1.vehicles db1.vehicle_models =
      next_vehicle db2.sales db2.customers db2.vehicles db2.vehicle_models := by
  rw [hs, hi, hv, hm, hc]
  exact ⟨rfl, rfl, rfl, rfl⟩

/-- Witness for C9 at a concrete database. -/
theorem C9_deterministic_witness :
    next_vehicle [⟨1, 1, 1, 1, 100⟩] [⟨1, "Alice"⟩] [] [] =
      next_vehicle [⟨1, 1, 1, 1, 100⟩] [⟨1, "Alice"⟩] [] [] :=
  (C9_deterministic ⟨[⟨1, 1, 1, 1, 100⟩], [], [], [], [⟨1, "Alice"⟩]⟩
    ⟨[⟨1, 1, 1, 1, 100⟩], [], [], [], [⟨1, "Alice"⟩]⟩ rfl rfl rfl rfl rfl).2.2.2

/-- C5: the sales-by-brand output is sorted so that adjacent rows have
non-increasing `n_sales`, and non-increasing `total_value` when the
`n_sales` values are equal. -/
theorem C5_sales_by_brand_sorted (sales : List Sale) (invoices : List Invoice)
    (vehicles : List Vehicle) (models : List VehicleModel) :
    List.Chain' (fun x y : SBOut =>
        y.n_sales ≤ x.n_sales ∧ (x.n_sales = y.n_sales → y.total_value ≤ x.total_value))
      (sales_by_brand sales invoices vehicles models) := by
  have hs : List.Sorted sbLe (sales_by_brand sales invoices vehicles models) :=
    List.sorted_insertionSort sbLe (sbGrouped (sbKept sales invoices vehicles models))
  have hp : List.Pairwise (fun x y : SBOut =>
      y.n_sales ≤ x.n_sales ∧ (x.n_sales = y.n_sales → y.total_value ≤ x.total_value))
      (sales_by_brand sales invoices vehicles models) := by
    refine hs.imp ?_
    intro a b hab
    rcases hab with h | ⟨he, ht⟩
    · exact ⟨Nat.le_of_lt h, fun he => absurd h (by omega)⟩
    · exact ⟨Nat.le_of_eq he.symm, fun _ => ht⟩
  exact hp.chain'

theorem nvModeRow_ok (dfs : List JRow) (k : Nat) (p : Nat × String)
    (h : nvModeRow dfs k = Except.ok p) :
    p.1 = k ∧ modeFirst (nvBrands dfs k) = some p.2 := by
  unfold nvModeRow at h
  cases hm : modeFirst (nvBrands dfs k) with
  | none =>
    rw [hm] at h
    cases h
  | some b =>
    rw [hm] at h
    cases h
    exact ⟨rfl, rfl⟩

theorem nvModeRows_ok_mem (dfs : List JRow) (ks : List Nat) (l : List (Nat × String))
    (h : nvModeRows dfs ks = Except.ok l) :
    ∀ p ∈ l, ∃ k ∈ ks, nvModeRow dfs k = Except.ok p := by
  induction ks generalizing l with
  | nil =>
    cases h
    intro p hp
    cases hp
  | cons k ks ih =>
    intro p hp
    unfold nvModeRows at h
    cases hk : nvModeRow dfs k with
    | error e =>
      rw [hk] at h
      cases h
    | ok q =>
      rw [hk] at h
      cases hrest : nvModeRows dfs ks with
      | error e =>
        rw [hrest] at h
        cases h
      | ok rest =>
        rw [hrest] at h
        cases h
        rcases List.mem_cons.mp hp with rfl | hmem
        · exact ⟨k, List.mem_cons_self k ks, hk⟩
        · rcases ih rest hrest p hmem with ⟨k', hk', hok⟩
          exact ⟨k', List.mem_cons_of_mem k hk', hok⟩

/-- C4 counterexample: customer 1 buys brand "Zebra" (day 100) then brand
"Apple" (day 200) — a frequency tie.  The tie-break the claim states
(first encountered in ascending `sale_dt` order) picks "Zebra", but the
code (`pd.Series.mode(x)[0]`, which sorts the tied modes) reports
"Apple". -/
theorem C4_counterexample :
    next_vehicle [⟨1, 1, 1, 1, 100⟩, ⟨2, 2, 1, 2, 200⟩] [⟨1, "Alice"⟩]
        [⟨1, 101, 2000⟩, ⟨2, 102, 2001⟩] [⟨101, "Zebra", "Z1"⟩, ⟨102, "Apple", "A1"⟩] =
      Except.ok [⟨1, "Apple", some "Zebra"⟩] ∧
    nvBrands (nvDfs [⟨1, 1, 1, 1, 100⟩, ⟨2, 2, 1, 2, 200⟩] [⟨1, "Alice"⟩]
        [⟨1, 101, 2000⟩, ⟨2, 102, 2001⟩] [⟨101, "Zebra", "Z1"⟩, ⟨102, "Apple", "A1"⟩]) 1 =
      ["Zebra", "Apple"] ∧
    modeFirstEncountered ["Zebra", "Apple"] = some "Zebra" ∧
    "Apple" ≠ "Zebra" := by decide

/-- C4 (amended): for every retained customer, `most_common_second_veh_brand`
is a mode of the non-null `brand_name` values over ALL of that customer's
retained sales, and when several brands are tied for most frequent the one
reported is the smallest tied brand in code-point (lexicographic) order —
not the tied brand first encountered in ascending-date order. -/
theorem C4_mode_smallest_tie (sales : List Sale) (customers : List Customer)
    (vehicles : List Vehicle) (models : List VehicleModel) (out : List NVOut)
    (h : next_vehicle sales customers vehicles models = Except.ok out) :
    ∀ o ∈ out,
      o.most_common_second_veh_brand ∈
        nvBrands (nvDfs sales customers vehicles models) o.customer_id ∧
      (∀ u ∈ nvBrands (nvDfs sales customers vehicles models) o.customer_id,
        (nvBrands (nvDfs sales customers vehicles models) o.customer_id).count u ≤
          (nvBrands (nvDfs sales customers vehicles models) o.customer_id).count
            o.most_common_second_veh_brand) ∧
      (∀ u ∈ nvBrands (nvDfs sales customers vehicles models) o.customer_id,
        (nvBrands (nvDfs sales customers vehicles models) o.customer_id).count u =
          (nvBrands (nvDfs sales customers vehicles models) o.customer_id).count
            o.most_common_second_veh_brand →
        strLe o.most_common_second_veh_brand u = true) := by
  intro o ho
  unfold next_vehicle at h
  cases hmr : nvModeRows (nvDfs sales customers vehicles models)
      (nvKeys sales customers vehicles models) with
  | error e =>
    rw [hmr] at h
    cases h
  | ok mrs =>
    rw [hmr] at h
    cases h
    have hperm := List.perm_insertionSort fvLe
      (nvMerged (nvDfs sales customers vehicles models)
        (nvKeys sales customers vehicles models) mrs)
    have homerged := hperm.mem_iff.mp ho
    unfold nvMerged at homerged
    rcases List.mem_map.mp homerged with ⟨p, hpmem, hpo⟩
    rcases nvModeRows_ok_mem _ _ _ hmr p hpmem with ⟨k, _, hok⟩
    rcases nvModeRow_ok _ _ _ hok with ⟨hpk, hmode⟩
    have hcid : o.customer_id = k := by
      rw [← hpo]
      exact hpk
    have hmc : o.most_common_second_veh_brand = p.2 := by
      rw [← hpo]
    rw [hcid, hmc]
    exact modeFirst_spec _ _ hmode

/-- Witness for C4: the reported brand is one of the customer's brands. -/
theorem C4_mode_smallest_tie_witness :
    "Apple" ∈ nvBrands (nvDfs [⟨1, 1, 1, 1, 100⟩, ⟨2, 2, 1, 2, 200⟩] [⟨1, "Alice"⟩]
        [⟨1, 101, 2000⟩, ⟨2, 102, 2001⟩] [⟨101, "Zebra", "Z1"⟩, ⟨102, "Apple", "A1"⟩]) 1 :=
  (C4_mode_smallest_tie [⟨1, 1, 1, 1, 100⟩, ⟨2, 2, 1, 2, 200⟩] [⟨1, "Alice"⟩]
      [⟨1, 101, 2000⟩, ⟨2, 102, 2001⟩] [⟨101, "Zebra", "Z1"⟩, ⟨102, "Apple", "A1"⟩]
      [⟨1, "Apple", some "Zebra"⟩] (by decide)
      ⟨1, "Apple", some "Zebra"⟩ (by decide)).1

theorem aggCustomer_isSome (cid : Nat) (g : List JRow) (hg : g ≠ []) :
    (aggCustomer cid g).isSome = true := by
  cases g with
  | nil => exact absurd rfl hg
  | cons r rs => rfl

theorem aggCustomer_ok (cid : Nat) (g : List JRow) (o : NCOut)
    (h : aggCustomer cid g = some o) :
    o.customer_id = cid ∧ o.sale_dt ∈ g.map (fun r => r.sale.sale_dt) ∧
      ∀ d ∈ g.map (fun r => r.sale.sale_dt), d ≤ o.sale_dt := by
  cases g with
  | nil => cases h
  | cons r rs =>
    cases h
    refine ⟨rfl, ?_, ?_⟩
    · show rs.foldl (fun acc x => max acc x.sale.sale_dt) r.sale.sale_dt ∈ _
      rw [← List.foldl_map (fun x : JRow => x.sale.sale_dt) max rs r.sale.sale_dt]
      rcases foldl_max_mem (rs.map (fun x : JRow => x.sale.sale_dt)) r.sale.sale_dt with
        hd | hd
      · rw [List.map_cons, hd]
        exact List.mem_cons_self _ _
      · rw [List.map_cons]
        exact List.mem_cons_of_mem _ hd
    · intro d hd
      show d ≤ rs.foldl (fun acc x => max acc x.sale.sale_dt) r.sale.sale_dt
      rw [← List.foldl_map (fun x : JRow => x.sale.sale_dt) max rs r.sale.sale_dt]
      rw [List.map_cons] at hd
      rcases List.mem_cons.mp hd with rfl | hmem
      · exact le_foldl_max _ _
      · exact le_foldl_max_of_mem _ _ _ hmem

theorem customersReport_spec (qualified : List JRow) (cid : Nat)
    (hq : ∃ r ∈ qualified, r.sale.customer_id = cid) :
    (customersReport qualified).countP (fun o => decide (o.customer_id = cid)) = 1 ∧
    ∃ o ∈ customersReport qualified, o.customer_id = cid ∧
      o.sale_dt ∈ (custGroup qualified cid).map (fun r => r.sale.sale_dt) ∧
      ∀ d ∈ (custGroup qualified cid).map (fun r => r.sale.sale_dt), d ≤ o.sale_dt := by
  have hknd : (ncKeys qualified).Nodup := by
    unfold ncKeys
    exact (List.perm_insertionSort _ _).nodup_iff.mpr (List.nodup_dedup _)
  have hmemk : ∀ k : Nat, k ∈ ncKeys qualified ↔
      k ∈ qualified.map (fun r => r.sale.customer_id) := by
    intro k
    unfold ncKeys
    rw [List.Perm.mem_iff (List.perm_insertionSort _ _), List.mem_dedup]
  rcases hq with ⟨r, hr, hrc⟩
  have hcidk : cid ∈ ncKeys qualified :=
    (hmemk cid).mpr (List.mem_map.mpr ⟨r, hr, hrc⟩)
  have hgrp_ne : ∀ k ∈ ncKeys qualified, custGroup qualified k ≠ [] := by
    intro k hk
    rcases List.mem_map.mp ((hmemk k).mp hk) with ⟨x, hx, hxk⟩
    exact List.ne_nil_of_mem (List.mem_filter.mpr ⟨hx, by simp [hxk]⟩)
  have hsome : ∀ k ∈ ncKeys qualified,
      (aggCustomer k (custGroup qualified k)).isSome = true :=
    fun k hk => aggCustomer_isSome k _ (hgrp_ne k hk)
  have hperm := List.perm_insertionSort nameLe (ncGrouped qualified)
  constructor
  · show (List.insertionSort nameLe (ncGrouped qualified)).countP _ = 1
    rw [List.Perm.countP_eq _ hperm]
    show ((ncKeys qualified).filterMap
      (fun k => aggCustomer k (custGroup qualified k))).countP _ = 1
    rw [countP_filterMap_keys (ncKeys qualified)
      (fun k => aggCustomer k (custGroup qualified k)) NCOut.customer_id
      (fun k o ho => (aggCustomer_ok k _ o ho).1) hsome hknd cid]
    simp [hcidk]
  · rcases Option.isSome_iff_exists.mp (hsome cid hcidk) with ⟨o, ho⟩
    refine ⟨o, ?_, ?_⟩
    · show o ∈ List.insertionSort nameLe (ncGrouped qualified)
      refine hperm.mem_iff.mpr ?_
      show o ∈ (ncKeys qualified).filterMap
        (fun k => aggCustomer k (custGroup qualified k))
      exact List.mem_filterMap.mpr ⟨cid, hcidk, ho⟩
    · rcases aggCustomer_ok cid _ o ho with ⟨h1, h2, h3⟩
      exact ⟨h1, h2, h3⟩

/-- C3: in the new-customers (resp. old-customers) report, every customer
with at least one surviving row dated on or after 2020-01-01 (resp. on or
before 2016-01-01 — both bounds inclusive, so a sale dated exactly on the
bound qualifies) appears exactly once, and the reported `sale_dt` is the
maximum `sale_dt` among that customer's qualifying rows. -/
theorem C3_qualifying_customers (sales : List Sale) (customers : List Customer)
    (vehicles : List Vehicle) (models : List VehicleModel) (cid : Nat) :
    ((∃ r ∈ ncKept sales customers vehicles models,
        r.sale.customer_id = cid ∧ newCutoff ≤ r.sale.sale_dt) →
      (new_customers sales customers vehicles models).countP
          (fun o => decide (o.customer_id = cid)) = 1 ∧
      ∃ o ∈ new_customers sales customers vehicles models, o.customer_id = cid ∧
        o.sale_dt ∈ (custGroup (ncQualified sales customers vehicles models) cid).map
            (fun r => r.sale.sale_dt) ∧
        ∀ d ∈ (custGroup (ncQualified sales customers vehicles models) cid).map
            (fun r => r.sale.sale_dt), d ≤ o.sale_dt) ∧
    ((∃ r ∈ ncKept sales customers vehicles models,
        r.sale.customer_id = cid ∧ r.sale.sale_dt ≤ oldCutoff) →
      (old_customers sales customers vehicles models).countP
          (fun o => decide (o.customer_id = cid)) = 1 ∧
      ∃ o ∈ old_customers sales customers vehicles models, o.customer_id = cid ∧
        o.sale_dt ∈ (custGroup (ocQualified sales customers vehicles models) cid).map
            (fun r => r.sale.sale_dt) ∧
        ∀ d ∈ (custGroup (ocQualified sales customers vehicles models) cid).map
            (fun r => r.sale.sale_dt), d ≤ o.sale_dt) := by
  constructor
  · rintro ⟨r, hr, hrc, hrd⟩
    exact customersReport_spec (ncQualified sales customers vehicles models) cid
      ⟨r, List.mem_filter.mpr ⟨hr, by simp [hrd]⟩, hrc⟩
  · rintro ⟨r, hr, hrc, hrd⟩
    exact customersReport_spec (ocQualified sales customers vehicles models) cid
      ⟨r, List.mem_filter.mpr ⟨hr, by simp [hrd]⟩, hrc⟩

/-- Witness for C3, with the qualifying sale dated exactly on each bound. -/
theorem C3_qualifying_customers_witness :
    (new_customers [⟨1, 1, 1, 1, 18262⟩] [⟨1, "Alice"⟩] [⟨1, 101, 2019⟩]
        [⟨101, "Toyota", "Corolla"⟩]).countP (fun o => decide (o.customer_id = 1)) = 1 ∧
    (old_customers [⟨1, 1, 1, 1, 16801⟩] [⟨1, "Alice"⟩] [⟨1, 101, 2010⟩]
        [⟨101, "Toyota", "Corolla"⟩]).countP (fun o => decide (o.customer_id = 1)) = 1 :=
  ⟨((C3_qualifying_customers [⟨1, 1, 1, 1, 18262⟩] [⟨1, "Alice"⟩] [⟨1, 101, 2019⟩]
      [⟨101, "Toyota", "Corolla"⟩] 1).1 (by decide)).1,
   ((C3_qualifying_customers [⟨1, 1, 1, 1, 16801⟩] [⟨1, "Alice"⟩] [⟨1, 101, 2010⟩]
      [⟨101, "Toyota", "Corolla"⟩] 1).2 (by decide)).1⟩

theorem length_le_one_cases {β : Type} (l : List β) (h : l.length ≤ 1) :
    l = [] ∨ ∃ x, l = [x] := by
  cases l with
  | nil => exact Or.inl rfl
  | cons x t =>
    cases t with
    | nil => exact Or.inr ⟨x, rfl⟩
    | cons y u => simp at h

theorem sbKept_sale_contribution (s : Sale) (invoices : List Invoice)
    (vehicles : List Vehicle) (models : List VehicleModel)
    (hinv : (invoices.map Invoice.invoice_id).Nodup)
    (hveh : (vehicles.map Vehicle.vehicle_id).Nodup)
    (hvm : (models.map VehicleModel.vehicle_model_id).Nodup) :
    (((invoices.filter (fun i => decide (i.invoice_id = s.invoice_id))).flatMap (fun i =>
        (leftHand (vehicles.filter (fun v => decide (v.vehicle_id = s.vehicle_id)))).flatMap
          (fun ov => (leftHand (modelMatches models ov)).map
            (fun om => (⟨s, i, ov, om⟩ : BRow))))).filter bRowNotNull).length =
      if saleJoinOk invoices vehicles models s then 1 else 0 := by
  have hI := filter_key_length_le_one Invoice.invoice_id invoices hinv s.invoice_id
  have hV := filter_key_length_le_one Vehicle.vehicle_id vehicles hveh s.vehicle_id
  unfold saleJoinOk
  rcases length_le_one_cases _ hV with hV0 | ⟨v, hV1⟩
  · rw [hV0]
    rcases length_le_one_cases _ hI with hI0 | ⟨i0, hI1⟩
    · rw [hI0]
      simp [leftHand, modelMatches, bRowNotNull]
    · rw [hI1]
      simp [leftHand, modelMatches, bRowNotNull]
  · rw [hV1]
    have hM := filter_key_length_le_one VehicleModel.vehicle_model_id models hvm
      v.vehicle_model_id
    rcases length_le_one_cases _ hM with hM0 | ⟨m, hM1⟩
    · rcases length_le_one_cases _ hI with hI0 | ⟨i0, hI1⟩
      · rw [hI0]
        simp [leftHand, modelMatches, bRowNotNull, hM0]
      · rw [hI1]
        simp [leftHand, modelMatches, bRowNotNull, hM0]
    · rcases length_le_one_cases _ hI with hI0 | ⟨i0, hI1⟩
      · rw [hI0]
        simp [leftHand, modelMatches, bRowNotNull, hM1]
      · rw [hI1]
        simp [leftHand, modelMatches, bRowNotNull, hM1]

theorem sbKept_length (sales : List Sale) (invoices : List Invoice)
    (vehicles : List Vehicle) (models : List VehicleModel)
    (hinv : (invoices.map Invoice.invoice_id).Nodup)
    (hveh : (vehicles.map Vehicle.vehicle_id).Nodup)
    (hvm : (models.map VehicleModel.vehicle_model_id).Nodup) :
    (sbKept sales invoices vehicles models).length =
      (sales.filter (saleJoinOk invoices vehicles models)).length := by
  induction sales with
  | nil => rfl
  | cons s ss ih =>
    show (((s :: ss).flatMap _).filter bRowNotNull).length = _
    rw [List.flatMap_cons, List.filter_append, List.length_append, List.filter_cons]
    have hcontrib := sbKept_sale_contribution s invoices vehicles models hinv hveh hvm
    have hih : ((ss.flatMap (fun s => (invoices.filter
        (fun i => decide (i.invoice_id = s.invoice_id))).flatMap (fun i =>
        (leftHand (vehicles.filter (fun v => decide (v.vehicle_id = s.vehicle_id)))).flatMap
          (fun ov => (leftHand (modelMatches models ov)).map
            (fun om => (⟨s, i, ov, om⟩ : BRow)))))).filter bRowNotNull).length =
        (ss.filter (saleJoinOk invoices vehicles models)).length := ih
    rw [hcontrib, hih]
    by_cases hs : saleJoinOk invoices vehicles models s = true
    · simp [hs]
      omega
    · simp [hs]

/-- C2: for every dataset with unique join keys in the dimension tables,
the sales-by-brand output has one row per distinct brand among the rows
surviving the joins with no nulls; each row's `n_sales` is the size of its
brand group and `total_value` the sum of `price` over it; and the `n_sales`
values sum to the number of Sales rows whose join succeeds with no nulls. -/
theorem C2_sales_by_brand (sales : List Sale) (invoices : List Invoice)
    (vehicles : List Vehicle) (models : List VehicleModel)
    (hinv : (invoices.map Invoice.invoice_id).Nodup)
    (hveh : (vehicles.map Vehicle.vehicle_id).Nodup)
    (hvm : (models.map VehicleModel.vehicle_model_id).Nodup) :
    ((sales_by_brand sales invoices vehicles models).map SBOut.vehicle_brand).Nodup ∧
    (∀ b : String,
      b ∈ (sales_by_brand sales invoices vehicles models).map SBOut.vehicle_brand ↔
      b ∈ (sbKept sales invoices vehicles models).filterMap brandKey) ∧
    (∀ o ∈ sales_by_brand sales invoices vehicles models,
      o.n_sales = (sbGroupRows (sbKept sales invoices vehicles models) o.vehicle_brand).length ∧
      o.total_value = ((sbGroupRows (sbKept sales invoices vehicles models)
        o.vehicle_brand).map (fun r => r.inv.price)).sum) ∧
    ((sales_by_brand sales invoices vehicles models).map SBOut.n_sales).sum =
      (sales.filter (saleJoinOk invoices vehicles models)).length := by
  have hperm := List.perm_insertionSort sbLe
    (sbGrouped (sbKept sales invoices vehicles models))
  have hkeysperm := List.perm_insertionSort strRel
    (((sbKept sales invoices vehicles models).filterMap brandKey).dedup)
  have hkeysnd : (sbKeys (sbKept sales invoices vehicles models)).Nodup := by
    unfold sbKeys
    exact (List.perm_insertionSort _ _).nodup_iff.mpr (List.nodup_dedup _)
  have hbrands : (sbGrouped (sbKept sales invoices vehicles models)).map SBOut.vehicle_brand =
      sbKeys (sbKept sales invoices vehicles models) := by
    unfold sbGrouped
    rw [List.map_map]
    exact List.map_id' _
  refine ⟨?_, ?_, ?_, ?_⟩
  · have := (hperm.map SBOut.vehicle_brand).nodup_iff
    rw [show (sales_by_brand sales invoices vehicles models).map SBOut.vehicle_brand =
      (List.insertionSort sbLe (sbGrouped (sbKept sales invoices vehicles models))).map
        SBOut.vehicle_brand from rfl]
    rw [this, hbrands]
    exact hkeysnd
  · intro b
    rw [show (sales_by_brand sales invoices vehicles models).map SBOut.vehicle_brand =
      (List.insertionSort sbLe (sbGrouped (sbKept sales invoices vehicles models))).map
        SBOut.vehicle_brand from rfl]
    rw [(hperm.map SBOut.vehicle_brand).mem_iff, hbrands]
    unfold sbKeys
    rw [hkeysperm.mem_iff, List.mem_dedup]
  · intro o ho
    have ho' : o ∈ sbGrouped (sbKept sales invoices vehicles models) := hperm.mem_iff.mp ho
    unfold sbGrouped at ho'
    rcases List.mem_map.mp ho' with ⟨b, _, hbo⟩
    rw [← hbo]
    exact ⟨rfl, rfl⟩
  · have hsummap : ((sales_by_brand sales invoices vehicles models).map SBOut.n_sales).sum =
        ((sbGrouped (sbKept sales invoices vehicles models)).map SBOut.n_sales).sum :=
      (hperm.map SBOut.n_sales).sum_eq
    rw [hsummap]
    have hgl : (sbGrouped (sbKept sales invoices vehicles models)).map SBOut.n_sales =
        (sbKeys (sbKept sales invoices vehicles models)).map
          (fun b => (sbGroupRows (sbKept sales invoices vehicles models) b).length) := by
      unfold sbGrouped
      rw [List.map_map]
      rfl
    rw [hgl]
    have hcov : ∀ r ∈ sbKept sales invoices vehicles models,
        brandKey r ∈ (sbKeys (sbKept sales invoices vehicles models)).map some := by
      intro r hr
      have hb := List.of_mem_filter hr
      simp only [bRowNotNull, Bool.and_eq_true] at hb
      rcases Option.isSome_iff_exists.mp hb.2 with ⟨mo, hmo⟩
      have hbk : brandKey r = some mo.brand_name := by
        simp [brandKey, hmo]
      rw [hbk]
      refine List.mem_map_of_mem some ?_
      show mo.brand_name ∈ sbKeys (sbKept sales invoices vehicles models)
      unfold sbKeys
      rw [hkeysperm.mem_iff, List.mem_dedup]
      exact List.mem_filterMap.mpr ⟨r, hr, hbk⟩
    have hsum := sum_group_lengths brandKey
      ((sbKeys (sbKept sales invoices vehicles models)).map some)
      (sbKept sales invoices vehicles models)
      (hkeysnd.map (Option.some_injective String)) hcov
    rw [List.map_map] at hsum
    have hfun : ((fun k => ((sbKept sales invoices vehicles models).filter
        (fun a => decide (brandKey a = k))).length) ∘ some) =
        (fun b => (sbGroupRows (sbKept sales invoices vehicles models) b).length) := rfl
    rw [hfun] at hsum
    rw [hsum]
    exact sbKept_length sales invoices vehicles models hinv hveh hvm

/-- Witness for C2 on a concrete dataset. -/
theorem C2_sales_by_brand_witness :
    ((sales_by_brand [⟨1, 1, 1, 1, 100⟩, ⟨2, 2, 1, 2, 200⟩] [⟨1, 100⟩, ⟨2, 250⟩]
        [⟨1, 101, 2019⟩, ⟨2, 102, 2021⟩]
        [⟨101, "Toyota", "Corolla"⟩, ⟨102, "Honda", "Civic"⟩]).map SBOut.n_sales).sum =
      ([⟨1, 1, 1, 1, 100⟩, ⟨2, 2, 1, 2, 200⟩].filter
        (saleJoinOk [⟨1, 100⟩, ⟨2, 250⟩] [⟨1, 101, 2019⟩, ⟨2, 102, 2021⟩]
          [⟨101, "Toyota", "Corolla"⟩, ⟨102, "Honda", "Civic"⟩])).length :=
  (C2_sales_by_brand [⟨1, 1, 1, 1, 100⟩, ⟨2, 2, 1, 2, 200⟩] [⟨1, 100⟩, ⟨2, 250⟩]
    [⟨1, 101, 2019⟩, ⟨2, 102, 2021⟩] [⟨101, "Toyota", "Corolla"⟩, ⟨102, "Honda", "Civic"⟩]
    (by decide) (by decide) (by decide)).2.2.2

theorem jrowsFor_length (s : Sale) (c : Customer) (vehicles : List Vehicle)
    (models : List VehicleModel)
    (hveh : (vehicles.map Vehicle.vehicle_id).Nodup)
    (hvm : (models.map VehicleModel.vehicle_model_id).Nodup) :
    ((leftHand (vehicles.filter (fun v => decide (v.vehicle_id = s.vehicle_id)))).flatMap
      (fun ov => (leftHand (modelMatches models ov)).map
        (fun om => (⟨s, c, ov, om⟩ : JRow)))).length = 1 := by
  have hV := filter_key_length_le_one Vehicle.vehicle_id vehicles hveh s.vehicle_id
  rcases length_le_one_cases _ hV with hV0 | ⟨v, hV1⟩
  · rw [hV0]
    simp [leftHand, modelMatches]
  · rw [hV1]
    have hM := filter_key_length_le_one VehicleModel.vehicle_model_id models hvm
      v.vehicle_model_id
    rcases length_le_one_cases _ hM with hM0 | ⟨m, hM1⟩
    · simp [leftHand, modelMatches, hM0]
    · simp [leftHand, modelMatches, hM1]

theorem jrowsFor_sale (s : Sale) (c : Customer) (vehicles : List Vehicle)
    (models : List VehicleModel) :
    ∀ r ∈ (leftHand (vehicles.filter (fun v => decide (v.vehicle_id = s.vehicle_id)))).flatMap
      (fun ov => (leftHand (modelMatches models ov)).map
        (fun om => (⟨s, c, ov, om⟩ : JRow))), r.sale = s := by
  intro r hr
  rcases List.mem_flatMap.mp hr with ⟨ov, _, hmap⟩
  rcases List.mem_map.mp hmap with ⟨om, _, hrow⟩
  rw [← hrow]

theorem joinSCVM_sale_contribution (s : Sale) (customers : List Customer)
    (vehicles : List Vehicle) (models : List VehicleModel) (cid : Nat)
    (hveh : (vehicles.map Vehicle.vehicle_id).Nodup)
    (hvm : (models.map VehicleModel.vehicle_model_id).Nodup) :
    (((customers.filter (fun c => decide (c.customer_id = s.customer_id))).flatMap (fun c =>
      (leftHand (vehicles.filter (fun v => decide (v.vehicle_id = s.vehicle_id)))).flatMap
        (fun ov => (leftHand (modelMatches models ov)).map
          (fun om => (⟨s, c, ov, om⟩ : JRow))))).filter
        (fun r => decide (r.sale.customer_id = cid))).length =
      if s.customer_id = cid
      then (customers.filter (fun c => decide (c.customer_id = s.customer_id))).length
      else 0 := by
  by_cases hs : s.customer_id = cid
  · rw [if_pos hs]
    have hall : ∀ r ∈ (customers.filter
        (fun c => decide (c.customer_id = s.customer_id))).flatMap (fun c =>
        (leftHand (vehicles.filter (fun v => decide (v.vehicle_id = s.vehicle_id)))).flatMap
          (fun ov => (leftHand (modelMatches models ov)).map
            (fun om => (⟨s, c, ov, om⟩ : JRow)))),
        (fun r : JRow => decide (r.sale.customer_id = cid)) r = true := by
      intro r hr
      rcases List.mem_flatMap.mp hr with ⟨c, _, hrc⟩
      have := jrowsFor_sale s c vehicles models r hrc
      simp [this, hs]
    rw [List.filter_eq_self.mpr hall, List.length_flatMap]
    have hone : List.map (List.length ∘ (fun c =>
        (leftHand (vehicles.filter (fun v => decide (v.vehicle_id = s.vehicle_id)))).flatMap
          (fun ov => (leftHand (modelMatches models ov)).map
            (fun om => (⟨s, c, ov, om⟩ : JRow)))))
        (customers.filter (fun c => decide (c.customer_id = s.customer_id))) =
        List.map (fun _ => 1)
          (customers.filter (fun c => decide (c.customer_id = s.customer_id))) := by
      apply List.map_congr_left
      intro c _
      exact jrowsFor_length s c vehicles models hveh hvm
    rw [hone, List.map_const', List.sum_replicate]
    simp
  · rw [if_neg hs]
    have hnil : ((customers.filter
        (fun c => decide (c.customer_id = s.customer_id))).flatMap (fun c =>
        (leftHand (vehicles.filter (fun v => decide (v.vehicle_id = s.vehicle_id)))).flatMap
          (fun ov => (leftHand (modelMatches models ov)).map
            (fun om => (⟨s, c, ov, om⟩ : JRow))))).filter
        (fun r => decide (r.sale.customer_id = cid)) = [] := by
      rw [List.filter_eq_nil_iff]
      intro r hr
      rcases List.mem_flatMap.mp hr with ⟨c, _, hrc⟩
      have := jrowsFor_sale s c vehicles models r hrc
      simp [this, hs]
    rw [hnil]
    rfl

theorem joinSCVM_cid_length (sales : List Sale) (customers : List Customer)
    (vehicles : List Vehicle) (models : List VehicleModel) (cid : Nat)
    (hcust : (customers.filter (fun c => decide (c.customer_id = cid))).length = 1)
    (hveh : (vehicles.map Vehicle.vehicle_id).Nodup)
    (hvm : (models.map VehicleModel.vehicle_model_id).Nodup) :
    (custGroup (joinSCVM sales customers vehicles models) cid).length =
      (sales.filter (fun s => decide (s.customer_id = cid))).length := by
  induction sales with
  | nil => rfl
  | cons s ss ih =>
    show (((s :: ss).flatMap _).filter _).length = _
    rw [List.flatMap_cons, List.filter_append, List.length_append, List.filter_cons]
    have hcontrib := joinSCVM_sale_contribution s customers vehicles models cid hveh hvm
    have hih : ((ss.flatMap (fun s =>
        (customers.filter (fun c => decide (c.customer_id = s.customer_id))).flatMap (fun c =>
        (leftHand (vehicles.filter (fun v => decide (v.vehicle_id = s.vehicle_id)))).flatMap
          (fun ov => (leftHand (modelMatches models ov)).map
            (fun om => (⟨s, c, ov, om⟩ : JRow)))))).filter
        (fun r => decide (r.sale.customer_id = cid))).length =
        (ss.filter (fun s => decide (s.customer_id = cid))).length := ih
    rw [hcontrib, hih]
    by_cases hs : s.customer_id = cid
    · rw [if_pos hs, hs, hcust]
      rw [if_pos (by simp : (decide (cid = cid)) = true), List.length_cons]
      omega
    · rw [if_neg hs]
      have hcond : ¬ ((decide (s.customer_id = cid)) = true) := by simp [hs]
      rw [if_neg hcond]
      omega

theorem custGroup_filter (df : List JRow) (f : Nat → Bool) (cid : Nat) :
    custGroup (df.filter (fun r => f r.sale.customer_id)) cid =
      if f cid = true then custGroup df cid else [] := by
  unfold custGroup
  rw [List.filter_filter]
  by_cases hf : f cid = true
  · rw [if_pos hf]
    apply List.filter_congr
    intro r _
    by_cases hc : r.sale.customer_id = cid
    · simp [hc, hf]
    · simp [hc]
  · rw [if_neg hf]
    rw [List.filter_eq_nil_iff]
    intro r _
    simp only [Bool.and_eq_true, decide_eq_true_eq, not_and]
    intro hdec
    rw [hdec]
    intro hfr
    exact hf hfr

theorem nvModeRows_ok_countP (dfs : List JRow) (ks : List Nat) (l : List (Nat × String))
    (h : nvModeRows dfs ks = Except.ok l) (cid : Nat) :
    l.countP (fun p => decide (p.1 = cid)) = ks.countP (fun k => decide (k = cid)) := by
  induction ks generalizing l with
  | nil =>
    cases h
    rfl
  | cons k ks ih =>
    unfold nvModeRows at h
    cases hk : nvModeRow dfs k with
    | error e =>
      rw [hk] at h
      cases h
    | ok q =>
      rw [hk] at h
      cases hrest : nvModeRows dfs ks with
      | error e =>
        rw [hrest] at h
        cases h
      | ok rest =>
        rw [hrest] at h
        cases h
        rw [List.countP_cons, List.countP_cons, ih rest hrest,
          (nvModeRow_ok dfs k q hk).1]

theorem mem_nvRetainedIds (df : List JRow) (cid : Nat) :
    cid ∈ nvRetainedIds df ↔ 1 < (custGroup df cid).length := by
  unfold nvRetainedIds
  rw [List.mem_filter, List.mem_dedup]
  constructor
  · rintro ⟨_, hd⟩
    simpa using hd
  · intro h
    refine ⟨?_, by simpa using h⟩
    rcases List.exists_mem_of_length_pos (by omega : 0 < (custGroup df cid).length) with
      ⟨r, hr⟩
    rcases List.mem_filter.mp hr with ⟨hrdf, hrc⟩
    exact List.mem_map.mpr ⟨r, hrdf, by simpa using hrc⟩

theorem mem_nvKeys (sales : List Sale) (customers : List Customer)
    (vehicles : List Vehicle) (models : List VehicleModel) (cid : Nat) :
    cid ∈ nvKeys sales customers vehicles models ↔
      0 < (custGroup (nvDfs sales customers vehicles models) cid).length := by
  unfold nvKeys
  rw [(List.perm_insertionSort _ _).mem_iff, List.mem_dedup]
  constructor
  · intro h
    rcases List.mem_map.mp h with ⟨r, hr, hrc⟩
    exact List.length_pos_of_mem (List.mem_filter.mpr ⟨hr, by simp [hrc]⟩)
  · intro h
    rcases List.exists_mem_of_length_pos h with ⟨r, hr⟩
    rcases List.mem_filter.mp hr with ⟨hrdf, hrc⟩
    exact List.mem_map.mpr ⟨r, hrdf, by simpa using hrc⟩

/-- C6: for every dataset with unique dimension keys and the customer
present exactly once in Customers, when the next-vehicle pipeline returns a
table, a customer with exactly one sale record never appears in it and a
customer with two or more sale records appears exactly once. -/
theorem C6_retained_customers (sales : List Sale) (customers : List Customer)
    (vehicles : List Vehicle) (models : List VehicleModel) (cid : Nat) (out : List NVOut)
    (hok : next_vehicle sales customers vehicles models = Except.ok out)
    (hcust : (customers.filter (fun c => decide (c.customer_id = cid))).length = 1)
    (hveh : (vehicles.map Vehicle.vehicle_id).Nodup)
    (hvm : (models.map VehicleModel.vehicle_model_id).Nodup) :
    ((sales.filter (fun s => decide (s.customer_id = cid))).length = 1 →
      out.countP (fun o => decide (o.customer_id = cid)) = 0) ∧
    (2 ≤ (sales.filter (fun s => decide (s.customer_id = cid))).length →
      out.countP (fun o => decide (o.customer_id = cid)) = 1) := by
  unfold next_vehicle at hok
  cases hmr : nvModeRows (nvDfs sales customers vehicles models)
      (nvKeys sales customers vehicles models) with
  | error e =>
    rw [hmr] at hok
    cases hok
  | ok mrs =>
    rw [hmr] at hok
    cases hok
    have hknd : (nvKeys sales customers vehicles models).Nodup := by
      unfold nvKeys
      exact (List.perm_insertionSort _ _).nodup_iff.mpr (List.nodup_dedup _)
    have hperm := List.perm_insertionSort fvLe
      (nvMerged (nvDfs sales customers vehicles models)
        (nvKeys sales customers vehicles models) mrs)
    have hcount : (List.insertionSort fvLe
        (nvMerged (nvDfs sales customers vehicles models)
          (nvKeys sales customers vehicles models) mrs)).countP
          (fun o => decide (o.customer_id = cid)) =
        if cid ∈ nvKeys sales customers vehicles models then 1 else 0 := by
      rw [List.Perm.countP_eq _ hperm]
      unfold nvMerged
      rw [List.countP_map]
      rw [show ((fun o : NVOut => decide (o.customer_id = cid)) ∘ (fun p : Nat × String =>
        ({ customer_id := p.1, most_common_second_veh_brand := p.2,
           first_veh_brand := (List.lookup p.1 (nvFirstRows
             (nvDfs sales customers vehicles models)
             (nvKeys sales customers vehicles models))).join } : NVOut))) =
        (fun p : Nat × String => decide (p.1 = cid)) from rfl]
      rw [nvModeRows_ok_countP _ _ _ hmr]
      exact countP_key_nodup _ hknd cid
    have hdfcnt : (custGroup (nvDf sales customers vehicles models) cid).length =
        (sales.filter (fun s => decide (s.customer_id = cid))).length :=
      joinSCVM_cid_length sales customers vehicles models cid hcust hveh hvm
    have hdfs_cnt : (custGroup (nvDfs sales customers vehicles models) cid).length =
        (custGroup (nvDf2 sales customers vehicles models) cid).length := by
      unfold custGroup
      rw [← List.countP_eq_length_filter, ← List.countP_eq_length_filter]
      exact List.Perm.countP_eq _
        (List.perm_insertionSort dateLe (nvDf2 sales customers vehicles models))
    have hdf2 : custGroup (nvDf2 sales customers vehicles models) cid =
        if (nvRetainedIds (nvDf sales customers vehicles models)).contains cid = true
        then custGroup (nvDf sales customers vehicles models) cid else [] :=
      custGroup_filter (nvDf sales customers vehicles models)
        (nvRetainedIds (nvDf sales customers vehicles models)).contains cid
    constructor
    · intro h1
      have hlen1 : (custGroup (nvDf sales customers vehicles models) cid).length = 1 := by
        rw [hdfcnt]
        exact h1
      have hnret : cid ∉ nvRetainedIds (nvDf sales customers vehicles models) := by
        rw [mem_nvRetainedIds, hlen1]
        omega
      have hcontains :
          (nvRetainedIds (nvDf sales customers vehicles models)).contains cid = false := by
        rw [show (nvRetainedIds (nvDf sales customers vehicles models)).contains cid =
          List.elem cid (nvRetainedIds (nvDf sales customers vehicles models)) from rfl,
          List.elem_eq_mem]
        simp [hnret]
      have hnk : cid ∉ nvKeys sales customers vehicles models := by
        rw [mem_nvKeys, hdfs_cnt, hdf2, hcontains]
        simp
      rw [hcount]
      simp [hnk]
    · intro h2
      have hlen2 : 2 ≤ (custGroup (nvDf sales customers vehicles models) cid).length := by
        rw [hdfcnt]
        exact h2
      have hret : cid ∈ nvRetainedIds (nvDf sales customers vehicles models) := by
        rw [mem_nvRetainedIds]
        omega
      have hcontains :
          (nvRetainedIds (nvDf sales customers vehicles models)).contains cid = true := by
        rw [show (nvRetainedIds (nvDf sales customers vehicles models)).contains cid =
          List.elem cid (nvRetainedIds (nvDf sales customers vehicles models)) from rfl,
          List.elem_eq_mem]
        simp [hret]
      have hk : cid ∈ nvKeys sales customers vehicles models := by
        rw [mem_nvKeys, hdfs_cnt, hdf2, hcontains]
        simp only [if_true]
        omega
      rw [hcount]
      simp [hk]

/-- Witness for C6: customer 1 has two sales and appears exactly once;
customer 2 has one sale and does not appear. -/
theorem C6_retained_customers_witness :
    (List.countP (fun o => decide (o.customer_id = 1))
      [({ customer_id := 1, most_common_second_veh_brand := "Toyota",
          first_veh_brand := some "Toyota" } : NVOut)] = 1) ∧
    (List.countP (fun o => decide (o.customer_id = 2))
      [({ customer_id := 1, most_common_second_veh_brand := "Toyota",
          first_veh_brand := some "Toyota" } : NVOut)] = 0) :=
  ⟨(C6_retained_customers [⟨1, 1, 1, 1, 100⟩, ⟨2, 2, 1, 1, 200⟩, ⟨3, 3, 2, 1, 300⟩]
      [⟨1, "Alice"⟩, ⟨2, "Bob"⟩] [⟨1, 101, 2019⟩] [⟨101, "Toyota", "Corolla"⟩] 1
      [⟨1, "Toyota", some "Toyota"⟩] (by decide) (by decide) (by decide) (by decide)).2
      (by decide),
   (C6_retained_customers [⟨1, 1, 1, 1, 100⟩, ⟨2, 2, 1, 1, 200⟩, ⟨3, 3, 2, 1, 300⟩]
      [⟨1, "Alice"⟩, ⟨2, "Bob"⟩] [⟨1, 101, 2019⟩] [⟨101, "Toyota", "Corolla"⟩] 2
      [⟨1, "Toyota", some "Toyota"⟩] (by decide) (by decide) (by decide) (by decide)).1
      (by decide)⟩
